import Mathlib

/-!
Shallow embedding of the two source files of the repository
`live_kit_test_app`:

* `backend/api/app.py` — the text-preparation Flask service:
  `estimate_speech_duration`, `TextPreparerAPI._shorten_text_by_openai`,
  `TextPreparerAPI._prepare_response` and the `POST /prepare_text` route
  body `prepare_text`.
* `backend/voice-agent/agent.py` — the voice-agent glue:
  `VoiceAgent._response_from_json`, `VoiceAgent._prepare_text_by_api`
  and `VoiceAgent.before_tts_cb`.

Python floats are modelled as rationals (ℚ).  For the duration
estimator the decimal rounding `round(x, 2)` applied by the code is
never within the tiny floating-point error of its input of a
decimal-rounding boundary (the rounded quantities are multiples of
`100/3`), so the exact rational value of the formula agrees with the
float computation and is used directly.  For the word budget of the
shortener (app.py line 84) the binary64 rounding is observable — the
double product can fall just below an integer — so IEEE binary64
arithmetic is modelled explicitly there (`fpRound`: round to nearest,
ties to even, 53-bit significand; the normal range is never left by the
quantities involved).

The word-character class of the regex `\w` used by the tokenizer is
Unicode-aware in Python; the Unicode character database is external
data, so the class enters the embedding as a parameter
`w : Char → Bool` (a Lean `Char` ranges over exactly the Unicode scalar
values, hence the actual class of the program is one instantiation of
the parameter).  Theorems about the estimator are proved for every
class; `isWordChar` below is the ASCII portion of the class and serves
as a concrete sample instantiation.

Python `None` is modelled by `Option.none`.  External effects (the OpenAI
chat-completion call, the HTTP round trip, the asynchronous token stream)
are modelled as explicit oracle inputs: a value of an `Except`/sum type
describing the outcome of the effect.
-/

namespace LiveKitApp

/-! ## backend/api/app.py -/

/-- `WORDS_PER_MINUTE = 180` (app.py line 11). -/
def WORDS_PER_MINUTE : ℕ := 180

/-- The ASCII portion of the word-character class `\w` (alphanumeric or
underscore).  Python's `\w` on `str` additionally matches non-ASCII
Unicode word characters; the full class is kept abstract as a parameter
`w : Char → Bool` in the definitions below, and this ASCII sample is
used to instantiate witnesses and the service embedding, whose judged
properties do not depend on the class. -/
def isWordChar (c : Char) : Bool := c.isAlphanum || c == '_'

/-- Counts maximal runs of characters of the class `w` in a character
list; the flag records whether the previous character was in the class
(i.e. whether we are inside a run). -/
def countWordsAuxIn (w : Char → Bool) : Bool → List Char → ℕ
  | _, [] => 0
  | inWord, c :: rest =>
      if w c then
        (if inWord then 0 else 1) + countWordsAuxIn w true rest
      else
        countWordsAuxIn w false rest

/-- `len(re.findall(r'\w+', text))` (app.py line 26) with the
word-character class `w` of `\w` as a parameter: the number of maximal
runs of `w`-characters in `text`.  Instantiating `w` at the Unicode
word-character class of Python's `re` module gives the count the
program computes. -/
def countWordsIn (w : Char → Bool) (s : String) : ℕ :=
  countWordsAuxIn w false s.data

/-- The word count at the ASCII sample class. -/
def countWords (s : String) : ℕ := countWordsIn isWordChar s

/-- Python `round(x, 2)` over ℚ: round `x * 100` to the nearest integer
and divide by `100`.  (Python uses round-half-to-even; every value this
code rounds is a multiple of `1/3` scaled by `100`, never a half-integer,
so the tie-breaking rule is irrelevant here.) -/
def round2 (x : ℚ) : ℚ := ((round (x * 100) : ℤ) : ℚ) / 100

/-- `estimate_speech_duration` (app.py lines 18–28) with the
word-character class as a parameter:
`words = len(re.findall(r'\w+', text))`;
`duration_minutes = words / WORDS_PER_MINUTE`;
`return round(duration_minutes * 60, 2)`. -/
def estimate_speech_duration_in (w : Char → Bool) (text : String) : ℚ :=
  let words : ℚ := countWordsIn w text
  let duration_minutes := words / (WORDS_PER_MINUTE : ℚ)
  round2 (duration_minutes * 60)

/-- The estimator at the ASCII sample class, used in the embedding of
the `prepare_text` route; the judged properties of that route do not
depend on the class (the estimate enters both sides symmetrically). -/
def estimate_speech_duration (text : String) : ℚ :=
  estimate_speech_duration_in isWordChar text

/-- Python `int(x)` on a float: truncation toward zero. -/
def pyInt (x : ℚ) : ℤ := if 0 ≤ x then ⌊x⌋ else ⌈x⌉

/-- Round-half-to-even to an integer (the IEEE 754 default tie rule). -/
def roundEven (x : ℚ) : ℤ :=
  if x - ⌊x⌋ < 1/2 then ⌊x⌋
  else if 1/2 < x - ⌊x⌋ then ⌊x⌋ + 1
  else if ⌊x⌋ % 2 = 0 then ⌊x⌋ else ⌊x⌋ + 1

/-- The IEEE binary64 value nearest to a rational: the significand
`|x| / 2 ^ (⌊log₂ |x|⌋ - 52)` is rounded to an integer with ties to
even.  Valid in the normal range (no overflow or subnormals), which the
quantities modelled here never leave. -/
def fpRound (x : ℚ) : ℚ :=
  if x = 0 then 0
  else
    (if 0 < x then 1 else -1) *
      (roundEven (|x| / 2 ^ (Int.log 2 |x| - 52)) : ℚ) *
        2 ^ (Int.log 2 |x| - 52)

/-- The word budget computed by `_shorten_text_by_openai` (app.py line
84): `target_words = int((max_audio_length_seconds / 60) * WORDS_PER_MINUTE)`.
The configured maximum audio length is a duration in seconds (ℕ).  Both
CPython operations are correctly rounded binary64 steps: `m / 60` (true
division of ints) produces the double nearest to the exact quotient,
and the multiplication by 180 (converted exactly) rounds once more, so
the computation is `fpRound (fpRound (m / 60) * 180)` before the final
`int` truncation. -/
def target_words (max_audio_length_seconds : ℕ) : ℤ :=
  pyInt (fpRound (fpRound ((max_audio_length_seconds : ℚ) / 60) *
    (WORDS_PER_MINUTE : ℚ)))

/-- Outcome of the external OpenAI chat-completion call: either the raw
content string of the first choice, or an exception (any error). -/
abbrev BackendResult := Except String String

/-- `_shorten_text_by_openai` (app.py lines 75–109), with the external
call's outcome passed as an oracle.  On success it returns
`response.choices[0].message.content.strip()`; on any exception it logs
and returns the original text unchanged.  (`String.trim` strips only
ASCII whitespace while Python `.strip()` strips all Unicode whitespace;
no theorem below depends on the success branch, whose output is
arbitrary backend text in any case — the judged fallback behaviour
lives entirely in the error branch, which is exact.) -/
def shorten_text_by_openai (backend : BackendResult) (text : String) : String :=
  match backend with
  | .ok content => content.trim
  | .error _ => text

/-- The JSON payload built by `_prepare_response` (app.py lines 49–73):
`duration` and `updated` always present, `duration_before` and `text`
present only when not `None`. -/
structure SpeechResponse where
  duration : ℚ
  updated : Bool
  duration_before : Option ℚ
  text : Option String
deriving DecidableEq, Repr

/-- `_prepare_response` (app.py lines 49–73): builds the response dict,
adding `duration_before`/`text` only when they are not `None`. -/
def prepare_response (duration : ℚ) (duration_before : Option ℚ)
    (updated : Bool) (text : Option String) : SpeechResponse :=
  { duration := duration, updated := updated,
    duration_before := duration_before, text := text }

/-- Result of the `POST /prepare_text` route: either a JSON error body
with an HTTP status, or a 200 response carrying a `SpeechResponse`. -/
inductive PrepareResult where
  | errorResp (status : ℕ) (message : String)
  | ok (resp : SpeechResponse)
deriving DecidableEq, Repr

/-- The body of the `prepare_text` route (app.py lines 116–148).
`data_text` is `data.get('text')` (`none` = field missing); Python's
`if not text` rejects both `None` and the empty string with a 422.  The
shortener (`self._shorten_text_by_openai(·, self.max_audio_length_seconds)`)
is passed as an oracle `shorten`. -/
def prepare_text (shorten : String → String)
    (max_audio_length_seconds : ℕ) (data_text : Option String) : PrepareResult :=
  match data_text with
  | none => .errorResp 422 "The \"text\" field is required."
  | some text =>
    if text = "" then .errorResp 422 "The \"text\" field is required."
    else
      let original_duration := estimate_speech_duration text
      if original_duration > (max_audio_length_seconds : ℚ) then
        let optimized_text := shorten text
        let optimized_duration := estimate_speech_duration optimized_text
        .ok (prepare_response optimized_duration (some original_duration)
              true (some optimized_text))
      else
        .ok (prepare_response original_duration none false none)

/-! ## backend/voice-agent/agent.py -/

/-- The parsed JSON body of a preparation-service response as seen by
`_response_from_json`'s `data.get` calls.  For `text`, `duration` and
`duration_before`, a missing key and a JSON `null` are indistinguishable
through `dict.get` and are both modelled by `none`.  For `updated`,
`data.get('updated', False)` folds a missing key to `False`, so `none`
models a missing key. -/
structure ApiJson where
  text : Option String
  duration : Option ℚ
  updated : Option Bool
  duration_before : Option ℚ
deriving DecidableEq, Repr

/-- The dict literal built by `_response_from_json` (agent.py lines
54–67).  All four keys are always present in this dict; `text`,
`duration` and `duration_before` may hold the value `None`. -/
structure ResponseDict where
  text : Option String
  duration : Option ℚ
  updated : Bool
  duration_before : Option ℚ
deriving DecidableEq, Repr

/-- `_response_from_json` (agent.py lines 54–67): `text`, `duration` and
`duration_before` are `data.get(...)` (defaulting to `None`), `updated`
is `data.get('updated', False)`. -/
def response_from_json (data : ApiJson) : ResponseDict :=
  { text := data.text
    duration := data.duration
    updated := data.updated.getD false
    duration_before := data.duration_before }

/-- Outcome of the `requests.post` round trip: either a
`requests.exceptions.RequestException`, or a response with a status code
and a parsed JSON body. -/
inductive HttpResult where
  | failure (e : String)
  | response (status_code : ℕ) (json : ApiJson)
deriving DecidableEq, Repr

/-- `_prepare_text_by_api` (agent.py lines 82–107), with the transport
outcome passed as an oracle.  The return value is a Python `str` or
`None` (despite the `-> str` annotation), hence `Option String`.  On a
200 response it returns
`response_dict.get('text', msg) if response_dict.get('updated') else msg`;
since `_response_from_json` always stores a `text` key, the `msg`
default of that `.get` can never fire, and the stored value (possibly
`None`) is returned whenever `updated` is truthy.  On a non-200 status
or a transport exception it returns `msg`. -/
def prepare_text_by_api (msg : String) (transport : HttpResult) : Option String :=
  match transport with
  | .failure _ => some msg
  | .response status_code json =>
    if status_code = 200 then
      let response_dict := response_from_json json
      if response_dict.updated then response_dict.text else some msg
    else
      some msg

/-- One event of the asynchronous fragment stream consumed by
`before_tts_cb`: either the next chunk, or an exception raised while
reading the stream. -/
inductive StreamEvent where
  | chunk (s : String)
  | raised (e : String)
deriving DecidableEq, Repr

/-- The `async for` accumulation loop of `before_tts_cb` (agent.py lines
133–138): `text += chunk` for each arriving chunk; an exception stops
consumption, keeping the text accumulated so far. -/
def accumulate (text : String) : List StreamEvent → String
  | [] => text
  | .chunk s :: rest => accumulate (text ++ s) rest
  | .raised _ :: _ => text

/-- The chunk strings that arrive before the first exception (all of
them when no exception occurs). -/
def chunksBeforeRaise : List StreamEvent → List String
  | [] => []
  | .chunk s :: rest => s :: chunksBeforeRaise rest
  | .raised _ :: _ => []

/-- The `text_gen` argument of `before_tts_cb`: either a complete string
or an asynchronous iterable of text chunks (modelled as the finite list
of its events). -/
inductive TextGen where
  | str (s : String)
  | stream (events : List StreamEvent)
deriving DecidableEq, Repr

/-- `before_tts_cb` (agent.py lines 118–145), with
`self._prepare_text_by_api` passed as an oracle `api`.  A plain string
is returned unchanged; a stream is accumulated, and the accumulated text
is sent through `api` only when non-empty (`if text:`). -/
def before_tts_cb (api : String → String) : TextGen → String
  | .str s => s
  | .stream events =>
    let text := accumulate "" events
    if text = "" then text else api text

/-! ## Helper lemmas -/

theorem round_mono {a b : ℚ} (h : a ≤ b) : round a ≤ round b := by
  rw [round_eq, round_eq]
  exact Int.floor_le_floor (by linarith)

theorem round2_mono {a b : ℚ} (h : a ≤ b) : round2 a ≤ round2 b := by
  unfold round2
  gcongr
  exact_mod_cast round_mono (by linarith)

theorem round2_nonneg {a : ℚ} (h : 0 ≤ a) : 0 ≤ round2 a := by
  have h0 : round (0 : ℚ) ≤ round (a * 100) := round_mono (by linarith)
  rw [round_zero] at h0
  unfold round2
  positivity

/-- The estimator equals the rounded word-count formula with the
constants written out, for every word-character class. -/
theorem estimateIn_eq (w : Char → Bool) (t : String) :
    estimate_speech_duration_in w t =
      round2 ((countWordsIn w t : ℚ) / 180 * 60) := by
  unfold estimate_speech_duration_in WORDS_PER_MINUTE
  norm_num

theorem estimateIn_empty (w : Char → Bool) :
    estimate_speech_duration_in w "" = 0 := by
  rw [estimateIn_eq]
  have h : countWordsIn w "" = 0 := rfl
  rw [h, round2]
  norm_num [round_eq]

theorem estimateIn_nonneg (w : Char → Bool) (t : String) :
    0 ≤ estimate_speech_duration_in w t := by
  rw [estimateIn_eq]
  exact round2_nonneg (by positivity)

theorem estimate_eq (t : String) :
    estimate_speech_duration t = round2 ((countWords t : ℚ) / 180 * 60) :=
  estimateIn_eq isWordChar t

theorem estimate_empty : estimate_speech_duration "" = 0 :=
  estimateIn_empty isWordChar

theorem estimate_nonneg (t : String) : 0 ≤ estimate_speech_duration t :=
  estimateIn_nonneg isWordChar t

/-- Concrete evaluation used by witnesses: a single word estimates to
0.33 seconds. -/
theorem estimate_single : estimate_speech_duration "a" = 33 / 100 := by
  rw [estimate_eq]
  have h : countWords "a" = 1 := by decide
  rw [h, round2]
  norm_num [round_eq]

theorem log_eq_of_bounds {x : ℚ} {e : ℤ} (h1 : (2:ℚ)^e ≤ x)
    (h2 : x < 2^(e+1)) : Int.log 2 x = e := by
  have hx : (0:ℚ) < x := lt_of_lt_of_le (by positivity) h1
  have hb : 1 < 2 := one_lt_two
  have hle : e ≤ Int.log 2 x := by
    rw [← Int.zpow_le_iff_le_log hb hx]
    exact_mod_cast h1
  have hlt : Int.log 2 x < e + 1 := by
    have h2c : x < ((2:ℕ):ℚ) ^ (e + 1) := by exact_mod_cast h2
    exact (Int.lt_zpow_iff_log_lt hb hx).mp h2c
  omega

/-- Computation rule for `fpRound` once the binade of the input is
known. -/
theorem fpRound_of_bounds (x : ℚ) (e : ℤ) (h1 : (2:ℚ)^e ≤ x)
    (h2 : x < 2^(e+1)) :
    fpRound x = (roundEven (x / 2^(e-52)) : ℚ) * 2^(e-52) := by
  have hx : (0:ℚ) < x := lt_of_lt_of_le (by positivity) h1
  have hlog : Int.log 2 x = e := log_eq_of_bounds h1 h2
  unfold fpRound
  rw [if_neg (ne_of_gt hx), if_pos hx, abs_of_pos hx, hlog, one_mul]

theorem roundEven_of_lt {x : ℚ} (h : x - ⌊x⌋ < 1/2) : roundEven x = ⌊x⌋ := by
  unfold roundEven
  rw [if_pos h]

theorem roundEven_abs_sub (x : ℚ) : |(roundEven x : ℚ) - x| ≤ 1/2 := by
  have hf0 : (⌊x⌋ : ℚ) ≤ x := Int.floor_le x
  have hf1 : x < ⌊x⌋ + 1 := Int.lt_floor_add_one x
  unfold roundEven
  split_ifs with h1 h2 h3 <;>
    exact abs_le.mpr ⟨by push_cast; linarith, by push_cast; linarith⟩

theorem roundEven_nonneg {x : ℚ} (h : 0 ≤ x) : 0 ≤ roundEven x := by
  have hf : 0 ≤ ⌊x⌋ := Int.floor_nonneg.mpr h
  unfold roundEven
  split_ifs <;> omega

theorem fpRound_nonneg {x : ℚ} (h : 0 ≤ x) : 0 ≤ fpRound x := by
  rcases eq_or_lt_of_le h with h0 | hpos
  · simp [fpRound, ← h0]
  · unfold fpRound
    rw [if_neg (ne_of_gt hpos), if_pos hpos, abs_of_pos hpos, one_mul]
    have harg : (0:ℚ) ≤ x / 2 ^ (Int.log 2 x - 52) := by positivity
    have hre : (0:ℤ) ≤ roundEven (x / 2 ^ (Int.log 2 x - 52)) :=
      roundEven_nonneg harg
    have hreQ : (0:ℚ) ≤ (roundEven (x / 2 ^ (Int.log 2 x - 52)) : ℚ) := by
      exact_mod_cast hre
    positivity

/-- One correctly rounded binary64 operation has relative error at most
`2 ^ (-53)` on nonnegative inputs. -/
theorem fpRound_abs_sub {x : ℚ} (hx : 0 ≤ x) : |fpRound x - x| ≤ x / 2^53 := by
  rcases eq_or_lt_of_le hx with h0 | hpos
  · simp [fpRound, ← h0]
  · have hu : (0:ℚ) < 2 ^ (Int.log 2 x - 52) := by positivity
    have hfp : fpRound x =
        (roundEven (x / 2 ^ (Int.log 2 x - 52)) : ℚ) *
          2 ^ (Int.log 2 x - 52) := by
      unfold fpRound
      rw [if_neg (ne_of_gt hpos), if_pos hpos, abs_of_pos hpos, one_mul]
    rw [hfp]
    have hre := roundEven_abs_sub (x / 2 ^ (Int.log 2 x - 52))
    have key : |(roundEven (x / 2 ^ (Int.log 2 x - 52)) : ℚ) *
          2 ^ (Int.log 2 x - 52) - x|
        = |(roundEven (x / 2 ^ (Int.log 2 x - 52)) : ℚ) -
            x / 2 ^ (Int.log 2 x - 52)| * 2 ^ (Int.log 2 x - 52) := by
      rw [show (roundEven (x / 2 ^ (Int.log 2 x - 52)) : ℚ) *
            2 ^ (Int.log 2 x - 52) - x
          = ((roundEven (x / 2 ^ (Int.log 2 x - 52)) : ℚ) -
              x / 2 ^ (Int.log 2 x - 52)) * 2 ^ (Int.log 2 x - 52) by
            field_simp,
        abs_mul, abs_of_pos hu]
    rw [key]
    have h2e : (2:ℚ) ^ Int.log 2 x ≤ x := by
      have h := Int.zpow_log_le_self (R := ℚ) one_lt_two hpos
      exact_mod_cast h
    have h3 : (1/2 : ℚ) * 2 ^ (Int.log 2 x - 52) = 2 ^ Int.log 2 x / 2^53 := by
      rw [zpow_sub₀ (by norm_num : (2:ℚ) ≠ 0)]
      have h52 : ((2:ℚ) ^ (52:ℤ)) = 4503599627370496 := by norm_num
      rw [h52]
      ring
    calc |(roundEven (x / 2 ^ (Int.log 2 x - 52)) : ℚ) -
          x / 2 ^ (Int.log 2 x - 52)| * 2 ^ (Int.log 2 x - 52)
        ≤ (1/2) * 2 ^ (Int.log 2 x - 52) :=
          mul_le_mul_of_nonneg_right hre (le_of_lt hu)
      _ = 2 ^ Int.log 2 x / 2^53 := h3
      _ ≤ x / 2^53 := by gcongr

theorem string_append_empty (s : String) : s ++ "" = s := by
  apply String.ext
  simp [String.data_append]

theorem string_empty_append (s : String) : "" ++ s = s := by
  apply String.ext
  simp [String.data_append]

theorem foldl_append_data (l : List String) :
    ∀ t : String, (l.foldl (· ++ ·) t).data = t.data ++ (l.map String.data).flatten := by
  induction l with
  | nil => intro t; simp
  | cons a l ih => intro t; simp [List.foldl_cons, ih, String.data_append]

theorem join_data (l : List String) :
    (String.join l).data = (l.map String.data).flatten := by
  simp [String.join, foldl_append_data l ""]

theorem join_cons (s : String) (l : List String) :
    String.join (s :: l) = s ++ String.join l := by
  apply String.ext
  simp [join_data, String.data_append]

/-- The accumulation loop, started from any already-accumulated text,
appends exactly the chunks that arrive before the first exception. -/
theorem accumulate_eq (evs : List StreamEvent) :
    ∀ t, accumulate t evs = t ++ String.join (chunksBeforeRaise evs) := by
  induction evs with
  | nil =>
    intro t
    simp [accumulate, chunksBeforeRaise, String.join, string_append_empty]
  | cons e rest ih =>
    intro t
    cases e with
    | chunk s =>
      simp [accumulate, chunksBeforeRaise, ih, join_cons, String.append_assoc]
    | raised e =>
      simp [accumulate, chunksBeforeRaise, String.join, string_append_empty]

/-! ## Claims -/

/-- Claim C2: for every word-character class (Python's Unicode `\w`
class is one instantiation of the parameter) and every string, the
estimator returns `round(word_count / 180 * 60, 2)` where `word_count`
is the number of maximal runs of word characters; the empty string
estimates to 0.0, and every estimate is nonnegative. -/
theorem C2_estimate_formula (w : Char → Bool) (t : String) :
    estimate_speech_duration_in w t =
      round2 ((countWordsIn w t : ℚ) / 180 * 60) ∧
    estimate_speech_duration_in w "" = 0 ∧
    0 ≤ estimate_speech_duration_in w t :=
  ⟨estimateIn_eq w t, estimateIn_empty w, estimateIn_nonneg w t⟩

/-- Claim C8: for every word-character class (in particular the Unicode
`\w` class of the program), the estimator is monotone non-decreasing in
the word count: a text with at most as many word matches as another
estimates to at most the duration of the other. -/
theorem C8_estimate_monotone (w : Char → Bool) (s1 s2 : String)
    (h : countWordsIn w s1 ≤ countWordsIn w s2) :
    estimate_speech_duration_in w s1 ≤ estimate_speech_duration_in w s2 := by
  rw [estimateIn_eq, estimateIn_eq]
  apply round2_mono
  have hc : (countWordsIn w s1 : ℚ) ≤ (countWordsIn w s2 : ℚ) := by
    exact_mod_cast h
  linarith

/-- Witness for C8 at a concrete pair of texts and the ASCII sample
class. -/
theorem C8_witness :
    countWordsIn isWordChar "a" ≤ countWordsIn isWordChar "b c" ∧
    estimate_speech_duration_in isWordChar "a" ≤
      estimate_speech_duration_in isWordChar "b c" :=
  ⟨by decide, C8_estimate_monotone isWordChar "a" "b c" (by decide)⟩

/-- Counterexample to claim C7 as stated: at a configured maximum of 21
seconds the double product `(21 / 60) * 180` is `63 - 2 ^ (-47)`, just
below 63, so the code truncates to 62 while the claimed formula
`round(21 / 60 * 180)` gives 63. -/
theorem C7_counterexample :
    target_words 21 = 62 ∧
    round (((21 : ℚ) / 60) * 180) = 63 ∧
    target_words 21 ≠ round (((21 : ℚ) / 60) * 180) := by
  have h1 : fpRound ((21:ℚ)/60) = 6305039478318694 / 2^54 := by
    have h := fpRound_of_bounds ((21:ℚ)/60) (-2) (by norm_num) (by norm_num)
    rw [h]
    have hfl : (⌊((21:ℚ)/60) / 2^((-2:ℤ)-52)⌋ : ℤ) = 6305039478318694 := by
      norm_num [Int.floor_eq_iff]
    rw [roundEven_of_lt (by rw [hfl]; norm_num)]
    rw [hfl]
    norm_num
  have h2 : fpRound ((6305039478318694 / 2^54 : ℚ) * 180) =
      8866461766385663 / 2^47 := by
    have h := fpRound_of_bounds ((6305039478318694 / 2^54 : ℚ) * 180) 5
      (by norm_num) (by norm_num)
    rw [h]
    have hfl : (⌊((6305039478318694 / 2^54 : ℚ) * 180) / 2^((5:ℤ)-52)⌋ : ℤ)
        = 8866461766385663 := by
      norm_num [Int.floor_eq_iff]
    rw [roundEven_of_lt (by rw [hfl]; norm_num)]
    rw [hfl]
    norm_num
  have htw : target_words 21 = 62 := by
    unfold target_words
    have hc : ((21:ℕ):ℚ) = 21 := by norm_num
    have hw : ((WORDS_PER_MINUTE : ℕ) : ℚ) = 180 := by
      norm_num [WORDS_PER_MINUTE]
    rw [hc, hw, h1, h2]
    unfold pyInt
    rw [if_pos (by norm_num)]
    norm_num [Int.floor_eq_iff]
  have hrd : round (((21 : ℚ) / 60) * 180) = 63 := by norm_num [round_eq]
  exact ⟨htw, hrd, by rw [htw, hrd]; decide⟩

/-- Claim C7, amended: the word budget is always nonnegative, and for
every configured maximum up to `2 ^ 49` seconds it equals `3 * max` or
`3 * max - 1`, i.e. it differs from the claimed `round(max / 60 * 180)`
by at most one (exact equality fails: see the counterexample at a
maximum of 21 seconds). -/
theorem C7_target_words_amended (m : ℕ) (hm : m ≤ 2^49) :
    0 ≤ target_words m ∧
    (target_words m = 3 * (m:ℤ) ∨ target_words m = 3 * (m:ℤ) - 1) ∧
    |target_words m - round (((m : ℚ) / 60) * 180)| ≤ 1 := by
  have hround : round (((m : ℚ) / 60) * 180) = 3 * (m:ℤ) := by
    have hval : ((m : ℚ) / 60) * 180 = ((3 * (m:ℤ) : ℤ) : ℚ) := by
      push_cast; ring
    rw [hval, round_intCast]
  set x1 : ℚ := (m : ℚ) / 60 with hx1
  have hx1n : 0 ≤ x1 := by positivity
  set d1 := fpRound x1 with hd1
  have hd1n : 0 ≤ d1 := fpRound_nonneg hx1n
  have he1 : |d1 - x1| ≤ x1 / 2^53 := fpRound_abs_sub hx1n
  have hd1le : d1 ≤ 2 * x1 := by
    have h := (abs_le.mp he1).2
    have hsmall : x1 / 2^53 ≤ x1 := div_le_self hx1n (by norm_num)
    linarith
  set d2 := fpRound (d1 * 180) with hd2
  have hd2n : 0 ≤ d2 := fpRound_nonneg (by positivity)
  have he2 : |d2 - d1 * 180| ≤ (d1 * 180) / 2^53 :=
    fpRound_abs_sub (by positivity)
  have hmQ : (m:ℚ) ≤ 2^49 := by exact_mod_cast hm
  have hbound : |d2 - 3 * (m:ℚ)| ≤ 9/16 := by
    have h180 : |d1 * 180 - 3 * (m:ℚ)| = 180 * |d1 - x1| := by
      rw [show d1 * 180 - 3 * (m:ℚ) = 180 * (d1 - x1) by rw [hx1]; ring,
        abs_mul]
      norm_num
    calc |d2 - 3 * (m:ℚ)|
        ≤ |d2 - d1 * 180| + |d1 * 180 - 3 * (m:ℚ)| := abs_sub_le _ _ _
      _ ≤ (d1 * 180) / 2^53 + 180 * (x1 / 2^53) := by
          refine add_le_add he2 ?_
          rw [h180]
          exact mul_le_mul_of_nonneg_left he1 (by norm_num)
      _ ≤ (2 * x1 * 180) / 2^53 + 180 * (x1 / 2^53) := by gcongr
      _ = 540 * x1 / 2^53 := by ring
      _ = 9 * (m:ℚ) / 2^53 := by rw [hx1]; ring
      _ ≤ 9 * 2^49 / 2^53 := by gcongr
      _ = 9/16 := by norm_num
  have habs := abs_le.mp hbound
  have htw : target_words m = ⌊d2⌋ := by
    unfold target_words
    have hw : ((WORDS_PER_MINUTE : ℕ) : ℚ) = 180 := by
      norm_num [WORDS_PER_MINUTE]
    rw [hw, ← hx1, ← hd1, ← hd2]
    unfold pyInt
    rw [if_pos hd2n]
  have hub : ⌊d2⌋ ≤ 3 * (m:ℤ) := by
    have hlt : d2 < ((3 * (m:ℤ) + 1 : ℤ) : ℚ) := by
      push_cast
      linarith [habs.2]
    have := Int.floor_lt.mpr hlt
    omega
  have hlb : 3 * (m:ℤ) - 1 ≤ ⌊d2⌋ := by
    apply Int.le_floor.mpr
    push_cast
    linarith [habs.1]
  refine ⟨?_, ?_, ?_⟩
  · rw [htw]
    exact Int.floor_nonneg.mpr hd2n
  · rw [htw]
    omega
  · rw [htw, hround, abs_le]
    omega

/-- Witness for the amended C7 at a maximum of 5 seconds. -/
theorem C7_amended_witness :
    (5:ℕ) ≤ 2^49 ∧
    (0 ≤ target_words 5 ∧
     (target_words 5 = 3 * ((5:ℕ):ℤ) ∨ target_words 5 = 3 * ((5:ℕ):ℤ) - 1) ∧
     |target_words 5 - round ((((5:ℕ) : ℚ) / 60) * 180)| ≤ 1) :=
  ⟨by norm_num, C7_target_words_amended 5 (by norm_num)⟩

/-- Claim C9: a plain-string input to `before_tts_cb` is returned
unchanged, and the result does not depend on the preparation-service
oracle at all (the service is never contacted). -/
theorem C9_plain_string_unchanged (api1 api2 : String → String) (s : String) :
    before_tts_cb api1 (.str s) = s ∧
    before_tts_cb api1 (.str s) = before_tts_cb api2 (.str s) :=
  ⟨rfl, rfl⟩

/-- Claim C4: a missing or empty `text` field yields the 422 error body
`The "text" field is required.`, independently of the shortener and the
configured maximum; the error result carries no duration. -/
theorem C4_rejects_missing_or_empty (shorten : String → String) (m : ℕ) :
    prepare_text shorten m none =
      .errorResp 422 "The \"text\" field is required." ∧
    prepare_text shorten m (some "") =
      .errorResp 422 "The \"text\" field is required." :=
  ⟨rfl, by simp [prepare_text]⟩

/-- Claim C1: for a non-empty input text, `prepare_text` returns
`updated = true` with `duration_before` the original estimate, `text`
the shortener output and `duration` the re-estimate of that output,
exactly when the original estimate strictly exceeds the configured
maximum; otherwise it returns `updated = false` with the original
estimate and emits neither `text` nor `duration_before`. -/
theorem C1_prepare_text_decision (shorten : String → String) (m : ℕ)
    (t : String) (h : t ≠ "") :
    ((m : ℚ) < estimate_speech_duration t →
      prepare_text shorten m (some t) =
        .ok { duration := estimate_speech_duration (shorten t),
              updated := true,
              duration_before := some (estimate_speech_duration t),
              text := some (shorten t) }) ∧
    (estimate_speech_duration t ≤ (m : ℚ) →
      prepare_text shorten m (some t) =
        .ok { duration := estimate_speech_duration t, updated := false,
              duration_before := none, text := none }) := by
  constructor
  · intro hgt
    simp only [prepare_text, prepare_response, if_neg h]
    rw [if_pos (by exact_mod_cast hgt)]
  · intro hle
    simp only [prepare_text, prepare_response, if_neg h]
    rw [if_neg (by exact_mod_cast not_lt.mpr hle)]

/-- Witness for C1: a one-word text with a configured maximum of 0
seconds triggers the shortening branch. -/
theorem C1_witness :
    ("a" : String) ≠ "" ∧
    prepare_text id 0 (some "a") =
      .ok { duration := 33 / 100, updated := true,
            duration_before := some (33 / 100), text := some "a" } := by
  have ha := estimate_single
  refine ⟨by decide, ?_⟩
  have h := (C1_prepare_text_decision id 0 "a" (by decide)).1
    (by rw [ha]; norm_num)
  simpa [ha] using h

/-- Claim C3: when the external summarization call fails with any error,
the shortener returns the original text unchanged, and `prepare_text`
still answers `updated = true` with `duration` equal to the original
estimate recorded in `duration_before`. -/
theorem C3_shorten_failure_fallback (e t : String) (m : ℕ)
    (h : (m : ℚ) < estimate_speech_duration t) :
    shorten_text_by_openai (.error e) t = t ∧
    prepare_text (shorten_text_by_openai (.error e)) m (some t) =
      .ok { duration := estimate_speech_duration t, updated := true,
            duration_before := some (estimate_speech_duration t),
            text := some t } := by
  have ht : t ≠ "" := by
    intro he
    rw [he, estimate_empty] at h
    have hm : (0 : ℚ) ≤ (m : ℚ) := by positivity
    linarith
  refine ⟨rfl, ?_⟩
  simp only [prepare_text, prepare_response, if_neg ht]
  rw [if_pos (by exact_mod_cast h)]
  rfl

/-- Witness for C3 at a failing backend and a one-word text over a 0
second maximum. -/
theorem C3_witness :
    (((0 : ℕ) : ℚ) < estimate_speech_duration "a") ∧
    prepare_text (shorten_text_by_openai (.error "boom")) 0 (some "a") =
      .ok { duration := 33 / 100, updated := true,
            duration_before := some (33 / 100), text := some "a" } := by
  have ha := estimate_single
  have hgt : ((0 : ℕ) : ℚ) < estimate_speech_duration "a" := by
    rw [ha]; norm_num
  refine ⟨hgt, ?_⟩
  have h := (C3_shorten_failure_fallback "boom" "a" 0 hgt).2
  simpa [ha] using h

/-- Claim C5: stream accumulation concatenates, in arrival order, the
fragments that arrive before exhaustion or before the first error (an
error keeps the text accumulated so far); the example sequence
accumulates to `Hello, world`; and when the accumulated text is empty,
`before_tts_cb` returns the empty string for every service oracle, so
the service is not contacted. -/
theorem C5_stream_accumulation (evs : List StreamEvent)
    (api : String → String) :
    accumulate "" evs = String.join (chunksBeforeRaise evs) ∧
    (accumulate "" evs = "" → before_tts_cb api (.stream evs) = "") ∧
    accumulate "" [.chunk "Hel", .chunk "lo, ", .chunk "world"] =
      "Hello, world" := by
  refine ⟨?_, ?_, by decide⟩
  · rw [accumulate_eq evs "", string_empty_append]
  · intro hempty
    simp [before_tts_cb, hempty]

/-- Witness for C5: the empty stream accumulates to the empty string and
bypasses the service. -/
theorem C5_witness :
    accumulate "" ([] : List StreamEvent) =
      String.join (chunksBeforeRaise []) ∧
    before_tts_cb id (.stream []) = "" ∧
    accumulate "" [.chunk "Hel", .chunk "lo, ", .chunk "world"] =
      "Hello, world" :=
  ⟨(C5_stream_accumulation [] id).1,
   (C5_stream_accumulation [] id).2.1 rfl,
   (C5_stream_accumulation [] id).2.2⟩

/-- Claim C6: on a transport failure or a non-200 status,
`prepare_text_by_api` returns the original message unmodified; on a 200
response it substitutes the text field returned by the service exactly
when the response marks `updated` as true, and keeps the original
message otherwise. -/
theorem C6_api_fallback (msg e : String) (json : ApiJson) (status : ℕ)
    (hs : status ≠ 200) :
    prepare_text_by_api msg (.failure e) = some msg ∧
    prepare_text_by_api msg (.response status json) = some msg ∧
    ((response_from_json json).updated = true →
      prepare_text_by_api msg (.response 200 json) =
        (response_from_json json).text) ∧
    ((response_from_json json).updated = false →
      prepare_text_by_api msg (.response 200 json) = some msg) := by
  refine ⟨rfl, by simp [prepare_text_by_api, hs], ?_, ?_⟩ <;>
    intro h <;> simp [prepare_text_by_api, h]

/-- Witness for C6 at a concrete message, a 500 status and an updated
response carrying a text. -/
theorem C6_witness :
    prepare_text_by_api "m" (.failure "down") = some "m" ∧
    prepare_text_by_api "m" (.response 500 ⟨some "t", none, some true, none⟩) =
      some "m" ∧
    prepare_text_by_api "m" (.response 200 ⟨some "t", none, some true, none⟩) =
      some "t" := by
  have h := C6_api_fallback "m" "down" ⟨some "t", none, some true, none⟩ 500
    (by decide)
  exact ⟨h.1, h.2.1, h.2.2.1 rfl⟩

/-- Claim C10: `response_from_json` always stores a `text` entry
(defaulting to `None`), so on a 200 response marked `updated = true`
with a missing or null `text`, `prepare_text_by_api` returns that
missing value (`none`) rather than falling back to the original
message; the original message is returned only when `updated` is absent
or false. -/
theorem C10_missing_text_not_replaced (msg : String) (json : ApiJson) :
    (json.text = none → (response_from_json json).text = none) ∧
    (json.updated = some true →
      prepare_text_by_api msg (.response 200 json) = json.text) ∧
    ((json.updated = none ∨ json.updated = some false) →
      prepare_text_by_api msg (.response 200 json) = some msg) := by
  refine ⟨?_, ?_, ?_⟩
  · intro h; simp [response_from_json, h]
  · intro h; simp [prepare_text_by_api, response_from_json, h]
  · rintro (h | h) <;> simp [prepare_text_by_api, response_from_json, h]

/-- Witness for C10: an updated-true response with no text field makes
the agent return `none`, while an updated-absent response keeps the
original message. -/
theorem C10_witness :
    (response_from_json ⟨none, none, some true, none⟩).text = none ∧
    prepare_text_by_api "m" (.response 200 ⟨none, none, some true, none⟩) =
      none ∧
    prepare_text_by_api "m" (.response 200 ⟨none, none, none, none⟩) =
      some "m" :=
  ⟨(C10_missing_text_not_replaced "m" ⟨none, none, some true, none⟩).1 rfl,
   (C10_missing_text_not_replaced "m" ⟨none, none, some true, none⟩).2.1 rfl,
   (C10_missing_text_not_replaced "m" ⟨none, none, none, none⟩).2.2
     (Or.inl rfl)⟩

end LiveKitApp
